import Mathlib

/-!
Verification development for the fritzbox-cloudflare-dyndns repository.

The definitions below are a shallow embedding of the Go sources:
  * pkg/updater/cloudflare.go — the CloudflareUpdater worker loop
    (`spawnWorker`), its startup action-list construction (`init`) and the
    retry-policy parsing in `InitApi`;
  * the IPv6 prefix/suffix combination loop of `startPollServer` in main.go.

Go byte slices become `List Nat` with values below 256; Go byte arithmetic
wraps, which is made explicit with `% 256`.  The external Cloudflare API is
modelled as an environment of response functions, and every provider call the
worker issues is recorded in an explicit call trace.  `os.Exit(1)` is modelled
as a `fatal` flag that stops all further processing.
-/

namespace Dyndns

/-! ## Go net.IP model (byte slices, from the Go standard library used by the code) -/

/-- A Go `net.IP` value: a byte slice (each entry is a byte, i.e. below 256). -/
abbrev GoIP := List Nat

/-- The 12-byte header of an IPv4-in-IPv6 mapped address (`v4InV6Prefix` in Go). -/
def v4MappedHeader : List Nat := [0, 0, 0, 0, 0, 0, 0, 0, 0, 0, 0xff, 0xff]

/-- Go `isZeros`: every byte of the slice is zero. -/
def isZeros (p : List Nat) : Bool := p.all (fun b => b == 0)

/-- Go `net.IP.To4`: a 4-byte slice is returned as is; a 16-byte slice that is an
IPv4-mapped IPv6 address yields its last 4 bytes; anything else gives `none`
(Go `nil`).  The worker classifies a notification as IPv6 exactly when this
returns `none`. -/
def ipTo4 (ip : GoIP) : Option GoIP :=
  if ip.length = 4 then some ip
  else if ip.length = 16 && isZeros (ip.take 10) && (ip.getD 10 0 == 0xff)
      && (ip.getD 11 0 == 0xff) then
    some (ip.drop 12)
  else none

/-- Go `net.IP.Equal`: value equality of addresses, identifying an IPv4 address
with its IPv4-in-IPv6 mapped form. -/
def ipEqual (ip x : GoIP) : Bool :=
  if ip.length = x.length then ip == x
  else if ip.length = 4 && x.length = 16 then
    (x.take 12 == v4MappedHeader) && (ip == x.drop 12)
  else if ip.length = 16 && x.length = 4 then
    (ip.take 12 == v4MappedHeader) && (x == ip.drop 12)
  else false

/-- The DNS record type chosen by `spawnWorker` from the notification family:
`AAAA` when `ip.To4() == nil`, else `A`. -/
def recordTypeFor (ip : GoIP) : String :=
  if (ipTo4 ip).isNone then ("AAAA") else ("A")

/-! ## Provider model (cloudflare-go API as an external environment) -/

/-- A DNS record as reported by the provider (`cf.DNSRecord`): identifier,
content string, TTL and the `Proxied *bool` flag. -/
structure DNSRecord where
  id : String
  content : String
  ttl : Int
  proxied : Option Bool
deriving Repr, DecidableEq

/-- One provider API call issued by the worker, with the parameters the code
passes: `ListDNSRecords`, `CreateDNSRecord` and `UpdateDNSRecord`. -/
inductive ProviderCall where
  | listRec (zoneId recType name : String)
  | createRec (zoneId recType name content : String) (ttl : Int) (proxied : Bool)
  | updateRec (zoneId recId content : String) (ttl : Int) (proxied : Option Bool)
deriving Repr, DecidableEq

/-- Whether a provider call is a create call. -/
def isCreateCall : ProviderCall → Bool
  | ProviderCall.createRec _ _ _ _ _ _ => true
  | _ => false

/-- The provider environment: the responses the external Cloudflare API gives
to each call the worker can make.  `Except.error` models a failed call
(including timeouts). -/
structure ProviderEnv where
  listResult : String → String → String → Except String (List DNSRecord)
  createResult : String → String → String → String → Int → Bool → Except String Unit
  updateResult : String → String → String → Int → Option Bool → Except String Unit

/-! ## Updater data model (`Action`, worker state) -/

/-- Go `Action`: a configured DNS record name, its resolved Cloudflare zone id,
and the IP family it serves. -/
structure Action where
  DnsRecord : String
  CfZoneId : String
  IpVersion : Int
deriving Repr, DecidableEq

/-- The worker-visible mutable state: the immutable action list plus the two
`LastAddress` slots (`options.lastIpv4` / `options.lastIpv6`, `nil` when
unset). -/
structure WorkerState where
  actions : List Action
  lastIpv4 : Option GoIP
  lastIpv6 : Option GoIP
deriving Repr, DecidableEq

/-- The `LastAddress` slot that applies to a notification, chosen by the same
classification the code uses (`ip.To4() == nil` selects the IPv6 slot). -/
def familySlot (s : WorkerState) (ip : GoIP) : Option GoIP :=
  if (ipTo4 ip).isNone then s.lastIpv6 else s.lastIpv4

/-- The dedup check at the top of `spawnWorker`'s loop: the notification is
discarded when the family's `LastAddress` slot is set and `Equal` to the new
address. -/
def dedupHit (s : WorkerState) (ip : GoIP) : Bool :=
  if (ipTo4 ip).isNone then
    match s.lastIpv6 with
    | some last => ipEqual last ip
    | none => false
  else
    match s.lastIpv4 with
    | some last => ipEqual last ip
    | none => false

/-! ## The reconciliation worker (`spawnWorker`) -/

/-- The `for _, record := range records` update loop of `spawnWorker`: records
whose content already equals `ip.String()` are skipped; otherwise one update
call is issued with the new content and the record's own TTL and proxied flag.
A failed update call is `os.Exit(1)`: the returned flag is `true` and the
remaining records are not processed. -/
def runUpdateLoop (env : ProviderEnv) (zoneId : String) (ipS : String) :
    List DNSRecord → List ProviderCall × Bool
  | [] => ([], false)
  | r :: rs =>
    if r.content = ipS then runUpdateLoop env zoneId ipS rs
    else
      let call := ProviderCall.updateRec zoneId r.id ipS r.ttl r.proxied
      match env.updateResult zoneId r.id ipS r.ttl r.proxied with
      | Except.error _ => ([call], true)
      | Except.ok _ =>
        let rest := runUpdateLoop env zoneId ipS rs
        (call :: rest.1, rest.2)

/-- One action's reconciliation in `spawnWorker`: list the records for
(zone, type, name); on zero records create one with content `ip.String()`,
TTL 120 and proxied false; then run the update loop over the listed records.
Each failed provider call is `os.Exit(1)` (flag `true`). -/
def runAction (env : ProviderEnv) (ip : GoIP) (ipS : String) (a : Action) :
    List ProviderCall × Bool :=
  let recordType := recordTypeFor ip
  let listCall := ProviderCall.listRec a.CfZoneId recordType a.DnsRecord
  match env.listResult a.CfZoneId recordType a.DnsRecord with
  | Except.error _ => ([listCall], true)
  | Except.ok records =>
    if records.length = 0 then
      let createCall := ProviderCall.createRec a.CfZoneId recordType a.DnsRecord ipS 120 false
      match env.createResult a.CfZoneId recordType a.DnsRecord ipS 120 false with
      | Except.error _ => ([listCall, createCall], true)
      | Except.ok _ =>
        let rest := runUpdateLoop env a.CfZoneId ipS records
        (listCall :: createCall :: rest.1, rest.2)
    else
      let rest := runUpdateLoop env a.CfZoneId ipS records
      (listCall :: rest.1, rest.2)

/-- The `for _, action := range u.actions` loop of `spawnWorker`, with the two
family-skip tests exactly as in the code: an IPv6 notification skips actions
with `IpVersion != 6`, an IPv4 notification skips actions with
`IpVersion == 6`.  A fatal action stops the loop (`os.Exit(1)`). -/
def runActions (env : ProviderEnv) (ip : GoIP) (ipS : String) :
    List Action → List ProviderCall × Bool
  | [] => ([], false)
  | a :: rest =>
    if (ipTo4 ip).isNone = true ∧ a.IpVersion ≠ 6 then runActions env ip ipS rest
    else if (ipTo4 ip).isNone = false ∧ a.IpVersion = 6 then runActions env ip ipS rest
    else
      let res := runAction env ip ipS a
      if res.2 then res
      else
        let other := runActions env ip ipS rest
        (res.1 ++ other.1, other.2)

/-- Processing of one dequeued notification by `spawnWorker`: dedup check,
action loop, then (when the process did not exit) the family's `LastAddress`
slot is set to the new address.  `ipStr` is Go's `ip.String()`, treated as an
opaque function of the address. -/
def processNotification (env : ProviderEnv) (ipStr : GoIP → String)
    (s : WorkerState) (ip : GoIP) : WorkerState × List ProviderCall × Bool :=
  if dedupHit s ip then (s, [], false)
  else if (runActions env ip (ipStr ip) s.actions).2 then
    (s, (runActions env ip (ipStr ip) s.actions).1, true)
  else if (ipTo4 ip).isNone then
    (WorkerState.mk s.actions s.lastIpv4 (some ip),
     (runActions env ip (ipStr ip) s.actions).1, false)
  else
    (WorkerState.mk s.actions (some ip) s.lastIpv6,
     (runActions env ip (ipStr ip) s.actions).1, false)

/-- The worker applied to a whole (finite) sequence of queued notifications,
in arrival order.  A fatal notification (process exit) stops the run. -/
def runWorker (env : ProviderEnv) (ipStr : GoIP → String) (s : WorkerState) :
    List GoIP → WorkerState × List ProviderCall × Bool
  | [] => (s, [], false)
  | ip :: rest =>
    if (processNotification env ipStr s ip).2.2 then
      ((processNotification env ipStr s ip).1, (processNotification env ipStr s ip).2.1,
       true)
    else
      ((runWorker env ipStr (processNotification env ipStr s ip).1 rest).1,
       (processNotification env ipStr s ip).2.1
         ++ (runWorker env ipStr (processNotification env ipStr s ip).1 rest).2.1,
       (runWorker env ipStr (processNotification env ipStr s ip).1 rest).2.2)

/-! ## Startup action-list construction (`CloudflareUpdater.init`) -/

/-- Go `UpdaterOptions`: the configured record-name lists per family. -/
structure UpdaterOptions where
  ipv4Zones : List String
  ipv6Zones : List String
deriving Repr, DecidableEq

/-- The key set of the Go `zoneIdMap` built by `init`: every configured name
inserted once (map keys are unique); kept in first-occurrence order. -/
def dedupKeys (l : List String) : List String :=
  l.foldl (fun acc v => if v ∈ acc then acc else acc ++ [v]) []

/-- The zone-resolution loop of `init` over the map keys: each key is resolved
once through `publicsuffix.EffectiveTLDPlusOne` + `api.ZoneIDByName`, both
modelled together as the external oracle `resolveZone`; any error aborts
`init`. -/
def resolveAll (resolveZone : String → Except String String) :
    List String → Except String (List (String × String))
  | [] => Except.ok []
  | k :: ks =>
    match resolveZone k with
    | Except.error e => Except.error e
    | Except.ok zid =>
      match resolveAll resolveZone ks with
      | Except.error e => Except.error e
      | Except.ok rest => Except.ok ((k, zid) :: rest)

/-- Go map lookup `zoneIdMap[val]` (zero value `""` when the key is absent). -/
def lookupZone (m : List (String × String)) (k : String) : String :=
  match m.find? (fun p => p.1 == k) with
  | some p => p.2
  | none => ""

/-- `CloudflareUpdater.init`: resolve every distinct configured name once,
then build one `Action` per entry of the IPv4 list (family 4) followed by one
per entry of the IPv6 list (family 6).  Also returns the list of names that
were resolved (one resolution call each). -/
def initActions (resolveZone : String → Except String String)
    (opts : UpdaterOptions) : Except String (List Action × List String) :=
  let keys := dedupKeys (opts.ipv4Zones ++ opts.ipv6Zones)
  match resolveAll resolveZone keys with
  | Except.error e => Except.error e
  | Except.ok m =>
    Except.ok
      (opts.ipv4Zones.map (fun v => Action.mk v (lookupZone m v) 4) ++
       opts.ipv6Zones.map (fun v => Action.mk v (lookupZone m v) 6),
       keys)

/-! ## IPv6 prefix/suffix combination (`startPollServer` in main.go) -/

/-- The per-byte mask computed inside the combination loop: starting from
`0b00000000`, bit `7 - j` is added for every `j` with `i*8 + j >= maskLen`.
Go byte addition wraps, hence the `% 256` (the sum never actually wraps as the
added powers of two are distinct). -/
def maskByte (maskLen : Nat) (i : Nat) : Nat :=
  (List.range 8).foldl
    (fun mask j => if i * 8 + j ≥ maskLen then (mask + (1 <<< (7 - j))) % 256 else mask)
    0

/-- `constructedIp := make(net.IP, net.IPv6len); copy(constructedIp, prefix.IP)`:
a fresh 16-byte buffer holding the first bytes of the source, zero-padded. -/
def copyInto16 (src : List Nat) : List Nat :=
  src.take 16 ++ List.replicate (16 - src.length) 0

/-- The combination loop of `startPollServer`: for each byte index `i` in
0..15, `constructedIp[i] += localIp[i] & mask` with the per-byte mask, Go byte
addition wrapping mod 256. -/
def constructIp (maskLen : Nat) (prefixIp localIp : List Nat) : List Nat :=
  (List.range 16).foldl
    (fun constructedIp i =>
      constructedIp.set i
        ((constructedIp.getD i 0 + (localIp.getD i 0 &&& maskByte maskLen i)) % 256))
    (copyInto16 prefixIp)

/-- Modelled from the spec: the alternative bitwise-OR formulation of the
combination ("result byte = network byte OR masked suffix byte"), used to
compare the code's byte-wise addition against a plain bit-set. -/
def constructIpOrSpec (maskLen : Nat) (prefixIp localIp : List Nat) : List Nat :=
  (List.range 16).map
    (fun i => (copyInto16 prefixIp).getD i 0 ||| (localIp.getD i 0 &&& maskByte maskLen i))

/-- A well-formed delegated network address for prefix length `L`: every bit at
position `k*8 + j ≥ L` (position 0 = most significant bit of byte 0) is zero. -/
def wellFormedNet (L : Nat) (net : List Nat) : Prop :=
  ∀ k, k < 16 → ∀ j, j < 8 → L ≤ k * 8 + j → (net.getD k 0).testBit (7 - j) = false

/-! ## Retry-policy parsing (`InitApi`) -/

/-- Go `strconv.Atoi`, restricted to what the code relies on: an optional sign
followed by at least one decimal digit; anything else is a syntax error.
(The 64-bit range check of Go's `Atoi` is not modelled; the retry-policy
claims do not depend on it.) -/
def goAtoi (s : String) : Except String Int :=
  match s.data with
  | [] => Except.error ("invalid syntax")
  | c :: rest =>
    let signed : Bool × List Char :=
      if c = '-' then (true, rest)
      else if c = '+' then (false, rest) else (false, c :: rest)
    if signed.2 = [] then Except.error ("invalid syntax")
    else if signed.2.all Char.isDigit then
      let n : Nat := signed.2.foldl (fun acc d => acc * 10 + (d.toNat - 48)) 0
      Except.ok (if signed.1 then -(n : Int) else (n : Int))
    else Except.error ("invalid syntax")

/-- Go `strings.Split` with a single-character separator, on char lists:
splits around every occurrence of the separator, keeping empty fields;
splitting the empty string yields one empty field. -/
def splitChars (sep : Char) : List Char → List (List Char)
  | [] => [[]]
  | c :: cs =>
    let rest := splitChars sep cs
    if c = sep then [] :: rest
    else
      match rest with
      | r :: rs => (c :: r) :: rs
      | [] => [[c]]

/-- Go `strings.Split(s, " ")` as used by `InitApi`. -/
def goSplitOnSpace (s : String) : List String :=
  (splitChars ' ' s.data).map (fun cs => String.mk cs)

/-- The possible outcomes of the retry-policy section of `InitApi`. -/
inductive RetryParse where
  | notConfigured
  | configured (maxRetries minRetryDelaySeconds maxRetryDelaySecs : Int)
  | parseError (msg : String)
  | indexOutOfRange
deriving Repr, DecidableEq

/-- The retry-policy section of `InitApi`: an empty policy string configures
nothing; otherwise the string is split on single spaces and fields 0, 1 and 2
are parsed with `Atoi` in order, each parse failure being returned as an
error.  Go evaluates `retryPolicySplit[1]` and `retryPolicySplit[2]` without a
bounds check, so a split with fewer than two (resp. three) fields is a runtime
index-out-of-range panic, modelled as `indexOutOfRange`. -/
def parseRetryPolicy (retryPolicy : String) : RetryParse :=
  if retryPolicy = "" then RetryParse.notConfigured
  else
    let parts := goSplitOnSpace retryPolicy
    match goAtoi (parts.getD 0 "") with
    | Except.error e => RetryParse.parseError (("Failed to parse maxRetries: ") ++ e)
    | Except.ok maxRetries =>
      if 2 ≤ parts.length then
        match goAtoi (parts.getD 1 "") with
        | Except.error e =>
          RetryParse.parseError (("Failed to parse minRetryDelaySeconds: ") ++ e)
        | Except.ok minDelay =>
          if 3 ≤ parts.length then
            match goAtoi (parts.getD 2 "") with
            | Except.error e =>
              RetryParse.parseError (("Failed to parse maxRetryDelaySecs: ") ++ e)
            | Except.ok maxDelay => RetryParse.configured maxRetries minDelay maxDelay
          else RetryParse.indexOutOfRange
      else RetryParse.indexOutOfRange

/-! ## Concrete fixtures used by the witness theorems -/

/-- A provider whose list phase always reports no records and whose calls all
succeed. -/
def envEmptyOk : ProviderEnv :=
  ProviderEnv.mk (fun _ _ _ => Except.ok []) (fun _ _ _ _ _ _ => Except.ok ())
    (fun _ _ _ _ _ => Except.ok ())

/-- The existing record of the spec's update-path scenario. -/
def recHome : DNSRecord := DNSRecord.mk ("r1") ("203.0.113.5") 300 (some true)

/-- A provider that reports exactly `recHome` and whose calls all succeed. -/
def envOneRecOk : ProviderEnv :=
  ProviderEnv.mk (fun _ _ _ => Except.ok [recHome]) (fun _ _ _ _ _ _ => Except.ok ())
    (fun _ _ _ _ _ => Except.ok ())

/-- A provider whose list phase always fails. -/
def envListErr : ProviderEnv :=
  ProviderEnv.mk (fun _ _ _ => Except.error ("timeout")) (fun _ _ _ _ _ _ => Except.ok ())
    (fun _ _ _ _ _ => Except.ok ())

/-- A provider with no records whose create call always fails. -/
def envCreateErr : ProviderEnv :=
  ProviderEnv.mk (fun _ _ _ => Except.ok []) (fun _ _ _ _ _ _ => Except.error ("boom"))
    (fun _ _ _ _ _ => Except.ok ())

/-- A provider that reports `recHome` and whose update call always fails. -/
def envUpdateErr : ProviderEnv :=
  ProviderEnv.mk (fun _ _ _ => Except.ok [recHome]) (fun _ _ _ _ _ _ => Except.ok ())
    (fun _ _ _ _ _ => Except.error ("boom"))

/-- The IPv4 notification of the spec's create-path scenario. -/
def ip4Home : GoIP := [203, 0, 113, 5]

/-- A 16-byte IPv6 notification. -/
def ip6Home : GoIP := [0x20, 0x01, 0x0d, 0xb8, 0, 0, 0, 0, 0, 0, 0, 0, 0, 0, 0, 1]

/-- A stand-in for Go's `ip.String()` on the fixtures. -/
def strFixed : GoIP → String := fun _ => ("203.0.113.9")

/-- The configured IPv4 action of the scenarios. -/
def actHome4 : Action := Action.mk ("home.example.com") ("zone1") 4

/-- The same record configured for IPv6. -/
def actHome6 : Action := Action.mk ("home.example.com") ("zone1") 6

/-- A worker state with one IPv4 action and no last addresses. -/
def state0 : WorkerState := WorkerState.mk [actHome4, actHome6] none none

/-- The delegated network of the spec's PrefixCombiner example
(`2001:db8:1:2::`). -/
def exNet : List Nat := [0x20, 0x01, 0x0d, 0xb8, 0, 1, 0, 2, 0, 0, 0, 0, 0, 0, 0, 0]

/-- The host suffix of the spec's PrefixCombiner example (`::1`). -/
def exSuf : List Nat := [0, 0, 0, 0, 0, 0, 0, 0, 0, 0, 0, 0, 0, 0, 0, 1]

/-- The expected combination (`2001:db8:1:2::1`). -/
def exRes : List Nat := [0x20, 0x01, 0x0d, 0xb8, 0, 1, 0, 2, 0, 0, 0, 0, 0, 0, 0, 1]

/-- A worker state whose IPv4 `LastAddress` slot already holds `ip4Home`. -/
def stateLast4 : WorkerState := WorkerState.mk [actHome4] (some ip4Home) none

/-- A zone-resolution oracle that always succeeds. -/
def resolverOk : String → Except String String := fun _ => Except.ok ("zone1")

end Dyndns

namespace Dyndns

/-! ## Helper lemmas: the in-place update fold of the combination loop -/

/-- The fold preserves the buffer's length. -/
theorem foldl_set_length (g : Nat → Nat → Nat) (rng : List Nat) (l : List Nat) :
    (rng.foldl (fun acc i => acc.set i (g i (acc.getD i 0))) l).length = l.length := by
  induction rng generalizing l with
  | nil => rfl
  | cons i rng ih =>
    rw [List.foldl_cons, ih, List.length_set]

/-- Entries at positions the fold has not reached are unchanged. -/
theorem foldl_set_getD_ge (g : Nat → Nat → Nat) (n m : Nat) (l : List Nat) (h : n ≤ m) :
    ((List.range n).foldl (fun acc i => acc.set i (g i (acc.getD i 0))) l).getD m 0
      = l.getD m 0 := by
  induction n with
  | zero => rfl
  | succ n ih =>
    rw [List.range_succ, List.foldl_append, List.foldl_cons, List.foldl_nil,
      List.getD_eq_getElem?_getD, List.getElem?_set_ne (by omega),
      ← List.getD_eq_getElem?_getD]
    exact ih (by omega)

/-- Each entry below `n` holds the update of the original entry. -/
theorem foldl_set_getD_lt (g : Nat → Nat → Nat) (n k : Nat) (l : List Nat)
    (hk : k < n) (hn : n ≤ l.length) :
    ((List.range n).foldl (fun acc i => acc.set i (g i (acc.getD i 0))) l).getD k 0
      = g k (l.getD k 0) := by
  induction n with
  | zero => omega
  | succ n ih =>
    rw [List.range_succ, List.foldl_append, List.foldl_cons, List.foldl_nil]
    by_cases hkn : k = n
    · subst hkn
      rw [List.getD_eq_getElem?_getD,
        List.getElem?_set_self (by rw [foldl_set_length]; omega), Option.getD_some,
        foldl_set_getD_ge g k k l (by omega)]
    · rw [List.getD_eq_getElem?_getD, List.getElem?_set_ne (by omega),
        ← List.getD_eq_getElem?_getD]
      exact ih (by omega) (by omega)

/-- `copyInto16` always yields a 16-byte buffer. -/
theorem copyInto16_length (l : List Nat) : (copyInto16 l).length = 16 := by
  unfold copyInto16
  rw [List.length_append, List.length_take, List.length_replicate]
  omega

/-- Copying a 16-byte slice is the identity. -/
theorem copyInto16_eq (l : List Nat) (h : l.length = 16) : copyInto16 l = l := by
  unfold copyInto16
  rw [← h, List.take_length, h]
  simp

/-- The constructed address is always 16 bytes long. -/
theorem constructIp_length (L : Nat) (net suf : List Nat) :
    (constructIp L net suf).length = 16 := by
  unfold constructIp
  rw [foldl_set_length (fun i b => (b + (suf.getD i 0 &&& maskByte L i)) % 256),
    copyInto16_length]

/-- Byte `k` of the constructed address is the wrapped sum of the network byte
and the masked suffix byte — the byte-wise formula of the loop. -/
theorem constructIp_getD (L : Nat) (net suf : List Nat) (hn : net.length = 16)
    (k : Nat) (hk : k < 16) :
    (constructIp L net suf).getD k 0
      = (net.getD k 0 + (suf.getD k 0 &&& maskByte L k)) % 256 := by
  unfold constructIp
  rw [copyInto16_eq net hn,
    foldl_set_getD_lt (fun i b => (b + (suf.getD i 0 &&& maskByte L i)) % 256) 16 k net hk
      (by omega)]

/-- Byte `k` of the spec's OR formulation. -/
theorem constructIpOrSpec_getD (L : Nat) (net suf : List Nat) (hn : net.length = 16)
    (k : Nat) (hk : k < 16) :
    (constructIpOrSpec L net suf).getD k 0
      = net.getD k 0 ||| (suf.getD k 0 &&& maskByte L k) := by
  unfold constructIpOrSpec
  rw [copyInto16_eq net hn, List.getD_eq_getElem?_getD, List.getElem?_map,
    List.getElem?_range (by omega)]
  rfl

/-- The spec's OR formulation also yields 16 bytes. -/
theorem constructIpOrSpec_length (L : Nat) (net suf : List Nat) :
    (constructIpOrSpec L net suf).length = 16 := by
  unfold constructIpOrSpec
  rw [List.length_map, List.length_range]

/-! ## Helper lemmas: the per-byte mask -/

set_option maxRecDepth 4000 in
/-- Bit `7 - j` of the per-byte mask is set exactly when bit position
`k*8 + j` lies at or beyond the prefix length (exhaustive check over all
prefix lengths 0..128 and byte positions). -/
theorem maskByte_testBit :
    ∀ L, L < 129 → ∀ k, k < 16 → ∀ j, j < 8 →
      ((maskByte L k).testBit (7 - j) = decide (L ≤ k * 8 + j)) := by decide

set_option maxRecDepth 4000 in
/-- The per-byte mask is a byte. -/
theorem maskByte_lt :
    ∀ L, L < 129 → ∀ k, k < 16 → maskByte L k < 256 := by decide

/-- For prefix lengths of 128 or more, every per-byte mask is zero: all bit
positions `k*8 + j` with `k < 16` are below 128. -/
theorem maskByte_eq_zero_of_ge (L k : Nat) (hL : 128 ≤ L) (hk : k < 16) :
    maskByte L k = 0 := by
  unfold maskByte
  have hfold : ∀ (js : List Nat) (acc : Nat), (∀ j ∈ js, ¬(k * 8 + j ≥ L)) →
      (js.foldl
        (fun mask j => if k * 8 + j ≥ L then (mask + (1 <<< (7 - j))) % 256 else mask)
        acc) = acc := by
    intro js
    induction js with
    | nil => intro acc _; rfl
    | cons j js ih =>
      intro acc h
      rw [List.foldl_cons, if_neg (h j (List.mem_cons_self j js))]
      exact ih acc (fun x hx => h x (List.mem_cons_of_mem _ hx))
  exact hfold (List.range 8) 0 (fun j hj => by
    rw [List.mem_range] at hj
    omega)

/-! ## Helper lemmas: carry-free byte addition agrees with bitwise OR -/

/-- Addition of naturals with disjoint bits is bitwise OR. -/
theorem add_eq_lor_of_land_eq_zero (x : Nat) :
    ∀ y, x &&& y = 0 → x + y = x ||| y := by
  induction x using Nat.strong_induction_on with
  | _ x ih =>
    intro y h
    rcases Nat.eq_zero_or_pos x with hx | hx
    · subst hx
      rw [Nat.zero_add, Nat.zero_or]
    · have hd : x / 2 &&& y / 2 = 0 := by
        rw [← Nat.and_div_two, h]
      have ih2 := ih (x / 2) (Nat.div_lt_self hx (by omega)) (y / 2) hd
      have hnotboth : ¬(x % 2 = 1 ∧ y % 2 = 1) := by
        intro hb
        have h1 : (x &&& y) % 2 = 1 := Nat.and_mod_two_eq_one.mpr hb
        rw [h] at h1
        omega
      have hod : (x ||| y) / 2 = x / 2 ||| y / 2 := Nat.or_div_two
      have horm : (x ||| y) % 2 = x % 2 + y % 2 := by
        have hxm := Nat.mod_two_eq_zero_or_one x
        have hym := Nat.mod_two_eq_zero_or_one y
        have hom := Nat.mod_two_eq_zero_or_one (x ||| y)
        rcases hxm with h1 | h1 <;> rcases hym with h2 | h2
        · have : ¬(x ||| y) % 2 = 1 := by
            rw [Nat.or_mod_two_eq_one]
            omega
          omega
        · have : (x ||| y) % 2 = 1 := Nat.or_mod_two_eq_one.mpr (Or.inr h2)
          omega
        · have : (x ||| y) % 2 = 1 := Nat.or_mod_two_eq_one.mpr (Or.inl h1)
          omega
        · exact absurd ⟨h1, h2⟩ hnotboth
      omega

/-- Bitwise OR of two bytes is a byte. -/
theorem lor_lt_256 (x y : Nat) (hx : x < 256) (hy : y < 256) : x ||| y < 256 := by
  have hb : ∀ i, i ≥ 8 → (x ||| y).testBit i = false := by
    intro i hi
    have hpow : (256 : Nat) ≤ 2 ^ i := by
      calc (256 : Nat) = 2 ^ 8 := by norm_num
      _ ≤ 2 ^ i := Nat.pow_le_pow_right (by omega) hi
    rw [Nat.testBit_lor, Nat.testBit_lt_two_pow (by omega), Nat.testBit_lt_two_pow (by omega)]
    rfl
  have := Nat.lt_pow_two_of_testBit (x ||| y) hb
  omega

/-- Wrapped byte addition of bytes with disjoint bits is bitwise OR (and in
particular does not actually wrap). -/
theorem byte_add_eq_lor (x y : Nat) (hx : x < 256) (hy : y < 256) (h : x &&& y = 0) :
    (x + y) % 256 = x ||| y := by
  rw [add_eq_lor_of_land_eq_zero x y h,
    Nat.mod_eq_of_lt (lor_lt_256 x y hx hy)]

/-- A well-formed network byte has no bit in common with its per-byte mask. -/
theorem net_land_mask_eq_zero (L : Nat) (hL : L < 129) (net : List Nat) (k : Nat)
    (hk : k < 16) (hb : net.getD k 0 < 256) (hwf : wellFormedNet L net) :
    net.getD k 0 &&& maskByte L k = 0 := by
  apply Nat.eq_of_testBit_eq
  intro b
  rw [Nat.testBit_land, Nat.zero_testBit]
  by_cases hb8 : b < 8
  · by_cases hcond : L ≤ k * 8 + (7 - b)
    · have hnet := hwf k hk (7 - b) (by omega) hcond
      rw [show 7 - (7 - b) = b by omega] at hnet
      rw [hnet, Bool.false_and]
    · have hm := maskByte_testBit L hL k hk (7 - b) (by omega)
      rw [show 7 - (7 - b) = b by omega] at hm
      rw [hm, decide_eq_false hcond, Bool.and_false]
  · rw [Nat.testBit_lt_two_pow (x := net.getD k 0)
      (lt_of_lt_of_le hb (by
        calc (256 : Nat) = 2 ^ 8 := by norm_num
        _ ≤ 2 ^ b := Nat.pow_le_pow_right (by omega) (by omega))), Bool.false_and]

/-- A pointwise property of the entries (with the default) transfers to
`getD`. -/
theorem getD_prop (l : List Nat) (P : Nat → Prop) (hP : P 0) (hb : ∀ b ∈ l, P b)
    (k : Nat) : P (l.getD k 0) := by
  rw [List.getD_eq_getElem?_getD]
  cases h : l[k]? with
  | none => exact hP
  | some v => exact hb v (List.getElem?_mem h)

/-- Masking with `255` is the identity on bytes. -/
theorem land_255_eq (x : Nat) (hx : x < 256) : x &&& 255 = x := by
  have h : x &&& 2 ^ 8 - 1 = x := Nat.and_pow_two_sub_one_of_lt_two_pow (by omega)
  calc x &&& 255 = x &&& 2 ^ 8 - 1 := by norm_num
  _ = x := h

/-- With prefix length 0 the per-byte mask is all ones. -/
theorem maskByte_zero : ∀ k, k < 16 → maskByte 0 k = 255 := by decide

/-- With prefix length 128 the per-byte mask is all zeros. -/
theorem maskByte_128 : ∀ k, k < 16 → maskByte 128 k = 0 := by decide

/-- Conversion between the two indexings of a list. -/
theorem getElem_eq_getD (l : List Nat) (i : Nat) (h : i < l.length) :
    l[i] = l.getD i 0 := by
  rw [List.getD_eq_getElem?_getD, List.getElem?_eq_getElem h, Option.getD_some]

/-! ## C5 — PrefixCombiner byte-wise formula -/

/-- C5 (amended): for prefix lengths 0..128, bit `j` (0 = MSB) of the per-byte
mask is set exactly when `k*8 + j ≥ L`; every result byte equals the wrapped
sum `network[k] + (suffix[k] &&& mask_k)`; and, for a well-formed delegated
network address (all bits at positions ≥ L zero, which is what rules out any
interference between the two summands), every bit below `L` comes from the
network address and every other bit from the host suffix. -/
theorem c5_combiner_formula (L : Nat) (net suf : List Nat) :
    (L ≤ 128 → ∀ k, k < 16 → ∀ j, j < 8 →
       ((maskByte L k).testBit (7 - j) = true ↔ L ≤ k * 8 + j)) ∧
    (net.length = 16 → ∀ k, k < 16 →
       (constructIp L net suf).getD k 0
         = (net.getD k 0 + (suf.getD k 0 &&& maskByte L k)) % 256) ∧
    (L ≤ 128 → net.length = 16 → (∀ b ∈ net, b < 256) → (∀ b ∈ suf, b < 256) →
       wellFormedNet L net →
       ∀ k, k < 16 → ∀ j, j < 8 →
         ((constructIp L net suf).getD k 0).testBit (7 - j)
           = if k * 8 + j < L then (net.getD k 0).testBit (7 - j)
             else (suf.getD k 0).testBit (7 - j)) := by
  refine ⟨?_, ?_, ?_⟩
  · intro hL k hk j hj
    rw [maskByte_testBit L (by omega) k hk j hj]
    simp
  · intro hn k hk
    exact constructIp_getD L net suf hn k hk
  · intro hL hn hnb hsb hwf k hk j hj
    have hbn : net.getD k 0 < 256 := getD_prop net (fun b => b < 256) (by omega) hnb k
    have hbs : suf.getD k 0 < 256 := getD_prop suf (fun b => b < 256) (by omega) hsb k
    have hnm : net.getD k 0 &&& maskByte L k = 0 :=
      net_land_mask_eq_zero L (by omega) net k hk hbn hwf
    have hd : net.getD k 0 &&& (suf.getD k 0 &&& maskByte L k) = 0 := by
      rw [← Nat.and_assoc, Nat.and_comm (net.getD k 0) (suf.getD k 0), Nat.and_assoc,
        hnm, Nat.and_zero]
    have hsm : suf.getD k 0 &&& maskByte L k < 256 :=
      lt_of_le_of_lt Nat.and_le_left hbs
    rw [constructIp_getD L net suf hn k hk,
      byte_add_eq_lor (net.getD k 0) (suf.getD k 0 &&& maskByte L k) hbn hsm hd,
      Nat.testBit_lor, Nat.testBit_land,
      maskByte_testBit L (by omega) k hk j hj]
    by_cases hc : k * 8 + j < L
    · rw [if_pos hc, decide_eq_false (by omega), Bool.and_false, Bool.or_false]
    · rw [if_neg hc, decide_eq_true (by omega), Bool.and_true,
        hwf k hk j hj (by omega), Bool.false_or]

/-- C5 witness: the bit rule evaluated on the spec's example (`L = 64`,
network `2001:db8:1:2::`, suffix `::1`) at the last bit. -/
theorem c5_combiner_formula_witness :
    ((constructIp 64 exNet exSuf).getD 15 0).testBit 0 = (exSuf.getD 15 0).testBit 0 := by
  have h := (c5_combiner_formula 64 exNet exSuf).2.2 (by omega) (by decide)
    (by decide) (by decide) (by unfold wellFormedNet; decide) 15 (by omega) 7 (by omega)
  rw [show (7 : Nat) - 7 = 0 from rfl] at h
  rw [h, if_neg (by omega)]

/-- C5 counterexample: the claim's bit rule under merely "addition does not
carry" is false.  With `L = 0`, network byte 128 and an all-zero suffix no
byte addition carries (the masked suffix summand is 0), yet bit position 0 of
the result is the network's set bit, where the claim requires the suffix's
clear bit. -/
theorem c5_combiner_cex :
    ((constructIp 0 (128 :: List.replicate 15 0) (List.replicate 16 0)).getD 0 0).testBit 7
        = true
    ∧ ((List.replicate 16 0 : List Nat).getD 0 0).testBit 7 = false
    ∧ 128 + ((List.replicate 16 0 : List Nat).getD 0 0 &&& maskByte 0 0) < 256 := by
  decide

/-! ## C6 — PrefixCombiner boundary cases -/

/-- C6 (amended): with `L = 0` the result equals the suffix for an all-zero
(well-formed) network; with `L = 128` the result equals the network; the
spec's `L = 64` example combines to `2001:db8:1:2::1`.  The byte bounds are
implicit in Go's byte type. -/
theorem c6_combiner_boundaries (net suf : List Nat) :
    (net.length = 16 → (∀ b ∈ net, b = 0) → suf.length = 16 → (∀ b ∈ suf, b < 256) →
       constructIp 0 net suf = suf) ∧
    (net.length = 16 → (∀ b ∈ net, b < 256) → constructIp 128 net suf = net) ∧
    constructIp 64 exNet exSuf = exRes := by
  refine ⟨?_, ?_, by decide⟩
  · intro hn hn0 hs hsb
    apply List.ext_getElem (by rw [constructIp_length, hs])
    intro i h1 h2
    rw [constructIp_length] at h1
    rw [getElem_eq_getD _ i h2, getElem_eq_getD _ i (by rw [constructIp_length]; omega),
      constructIp_getD 0 net suf hn i h1,
      getD_prop net (fun b => b = 0) rfl hn0 i,
      maskByte_zero i h1,
      land_255_eq (suf.getD i 0) (getD_prop suf (fun b => b < 256) (by omega) hsb i),
      Nat.zero_add,
      Nat.mod_eq_of_lt (getD_prop suf (fun b => b < 256) (by omega) hsb i)]
  · intro hn hnb
    apply List.ext_getElem (by rw [constructIp_length, hn])
    intro i h1 h2
    rw [constructIp_length] at h1
    rw [getElem_eq_getD _ i h2, getElem_eq_getD _ i (by rw [constructIp_length]; omega),
      constructIp_getD 128 net suf hn i h1,
      maskByte_128 i h1, Nat.and_zero, Nat.add_zero,
      Nat.mod_eq_of_lt (getD_prop net (fun b => b < 256) (by omega) hnb i)]

/-- C6 witness: the `L = 128` boundary case on the example network. -/
theorem c6_combiner_boundaries_witness :
    constructIp 128 exNet exSuf = exNet :=
  (c6_combiner_boundaries exNet exSuf).2.1 (by decide) (by decide)

/-- C6 counterexample: with `L = 0` and a network that is not all zero the
result is not the suffix, so the claimed identity does not hold for every
network address. -/
theorem c6_combiner_cex :
    constructIp 0 (1 :: List.replicate 15 0) (List.replicate 16 0)
      ≠ List.replicate 16 0 := by
  decide

/-! ## C7 — addition/OR equivalence under well-formedness -/

/-- C7: for a well-formed delegated network address (all bits at positions
≥ L zero) the loop's byte-wise wrapped addition produces exactly the bitwise
OR combination, for every prefix length; and without that hypothesis the two
formulations can differ, as the concrete carry example shows. -/
theorem c7_add_or_equiv (L : Nat) (net suf : List Nat) (hn : net.length = 16)
    (hnb : ∀ b ∈ net, b < 256) (hsb : ∀ b ∈ suf, b < 256)
    (hwf : wellFormedNet L net) :
    constructIp L net suf = constructIpOrSpec L net suf ∧
    constructIp 0 (1 :: List.replicate 15 0) (1 :: List.replicate 15 0)
      ≠ constructIpOrSpec 0 (1 :: List.replicate 15 0) (1 :: List.replicate 15 0) := by
  constructor
  · apply List.ext_getElem (by rw [constructIp_length, constructIpOrSpec_length])
    intro i h1 h2
    rw [constructIp_length] at h1
    rw [getElem_eq_getD _ i (by rw [constructIp_length]; omega),
      getElem_eq_getD _ i (by rw [constructIpOrSpec_length]; omega),
      constructIp_getD L net suf hn i h1, constructIpOrSpec_getD L net suf hn i h1]
    have hbn : net.getD i 0 < 256 := getD_prop net (fun b => b < 256) (by omega) hnb i
    have hbs : suf.getD i 0 < 256 := getD_prop suf (fun b => b < 256) (by omega) hsb i
    by_cases hL : L < 129
    · have hnm : net.getD i 0 &&& maskByte L i = 0 :=
        net_land_mask_eq_zero L hL net i h1 hbn hwf
      have hd : net.getD i 0 &&& (suf.getD i 0 &&& maskByte L i) = 0 := by
        rw [← Nat.and_assoc, Nat.and_comm (net.getD i 0) (suf.getD i 0), Nat.and_assoc,
          hnm, Nat.and_zero]
      exact byte_add_eq_lor (net.getD i 0) (suf.getD i 0 &&& maskByte L i) hbn
        (lt_of_le_of_lt Nat.and_le_left hbs) hd
    · rw [maskByte_eq_zero_of_ge L i (by omega) h1, Nat.and_zero, Nat.add_zero,
        Nat.or_zero, Nat.mod_eq_of_lt hbn]
  · decide

/-- C7 witness: the equivalence evaluated on the spec's example. -/
theorem c7_add_or_equiv_witness :
    constructIp 64 exNet exSuf = constructIpOrSpec 64 exNet exSuf :=
  (c7_add_or_equiv 64 exNet exSuf (by decide) (by decide) (by decide)
    (by unfold wellFormedNet; decide)).1

/-! ## Helper lemmas: the reconciliation worker -/

/-- The update loop never issues a create call. -/
theorem runUpdateLoop_filter_create (env : ProviderEnv) (zoneId ipS : String)
    (records : List DNSRecord) :
    (runUpdateLoop env zoneId ipS records).1.filter isCreateCall = [] := by
  induction records with
  | nil => rfl
  | cons r rs ih =>
    unfold runUpdateLoop
    by_cases h : r.content = ipS
    · rw [if_pos h]
      exact ih
    · rw [if_neg h]
      cases hu : env.updateResult zoneId r.id ipS r.ttl r.proxied with
      | error e => rfl
      | ok u =>
        simp only [List.filter_cons, isCreateCall]
        exact ih

/-- Unfolding equation of the action loop at a cons cell. -/
theorem runActions_cons (env : ProviderEnv) (ip : GoIP) (ipS : String) (a : Action)
    (rest : List Action) :
    runActions env ip ipS (a :: rest)
      = if (ipTo4 ip).isNone = true ∧ a.IpVersion ≠ 6 then runActions env ip ipS rest
        else if (ipTo4 ip).isNone = false ∧ a.IpVersion = 6 then runActions env ip ipS rest
        else
          let res := runAction env ip ipS a
          if res.2 then res
          else
            let other := runActions env ip ipS rest
            (res.1 ++ other.1, other.2) := by
  conv_lhs => unfold runActions

/-! ## C2 — create path -/

/-- C2: the record type is `A` for an IPv4 notification and `AAAA` for an IPv6
one; when the list phase reports zero records, the action issues exactly one
create call, with content `ip.String()`, TTL 120 and proxied false; when the
list phase reports one or more records, no create call is issued. -/
theorem c2_create_path (env : ProviderEnv) (ip : GoIP) (ipS : String) (a : Action) :
    ((ipTo4 ip).isSome → recordTypeFor ip = ("A")) ∧
    ((ipTo4 ip).isNone → recordTypeFor ip = ("AAAA")) ∧
    (env.listResult a.CfZoneId (recordTypeFor ip) a.DnsRecord = Except.ok [] →
       (runAction env ip ipS a).1.filter isCreateCall
         = [ProviderCall.createRec a.CfZoneId (recordTypeFor ip) a.DnsRecord ipS 120 false]) ∧
    (∀ r rs, env.listResult a.CfZoneId (recordTypeFor ip) a.DnsRecord = Except.ok (r :: rs) →
       (runAction env ip ipS a).1.filter isCreateCall = []) := by
  refine ⟨?_, ?_, ?_, ?_⟩
  · intro h
    unfold recordTypeFor
    rw [if_neg]
    simp only [Option.isNone_iff_eq_none]
    intro hn
    rw [hn] at h
    simp at h
  · intro h
    unfold recordTypeFor
    rw [if_pos h]
  · intro hlist
    simp only [runAction]
    rw [hlist]
    simp only [List.length_nil, if_pos rfl]
    cases hc : env.createResult a.CfZoneId (recordTypeFor ip) a.DnsRecord ipS 120 false with
    | error e => rfl
    | ok u =>
      simp only [runUpdateLoop, List.filter_cons, isCreateCall]
      rfl
  · intro r rs hlist
    simp only [runAction]
    rw [hlist]
    simp only [List.length_cons, if_neg (by omega : ¬(rs.length + 1 = 0))]
    simp only [List.filter_cons, isCreateCall]
    exact runUpdateLoop_filter_create env a.CfZoneId ipS (r :: rs)

/-- C2 witness: the spec's create-path scenario (no existing records, IPv4
203.0.113.5) issues exactly the one expected create call. -/
theorem c2_create_path_witness :
    (runAction envEmptyOk ip4Home ("203.0.113.5") actHome4).1.filter isCreateCall
      = [ProviderCall.createRec ("zone1") ("A") ("home.example.com") ("203.0.113.5")
          120 false] :=
  (c2_create_path envEmptyOk ip4Home ("203.0.113.5") actHome4).2.2.1 rfl

/-! ## C3 — update path with field preservation -/

/-- C3: under successful update calls, the update loop issues exactly one
update per listed record whose content differs from `ip.String()` — with the
new content but the record's observed TTL and proxied flag — and none for
records whose content already matches. -/
theorem c3_update_path (env : ProviderEnv) (zoneId ipS : String)
    (records : List DNSRecord)
    (h : ∀ r ∈ records, r.content ≠ ipS →
        env.updateResult zoneId r.id ipS r.ttl r.proxied = Except.ok ()) :
    runUpdateLoop env zoneId ipS records
      = ((records.filter (fun r => r.content != ipS)).map
          (fun r => ProviderCall.updateRec zoneId r.id ipS r.ttl r.proxied), false) := by
  induction records with
  | nil => rfl
  | cons r rs ih =>
    unfold runUpdateLoop
    by_cases hc : r.content = ipS
    · rw [if_pos hc, List.filter_cons_of_neg (by simp [hc])]
      exact ih (fun x hx hne => h x (List.mem_cons_of_mem _ hx) hne)
    · rw [if_neg hc, h r (List.mem_cons_self r rs) hc,
        List.filter_cons_of_pos (by simp [hc]), List.map_cons,
        ih (fun x hx hne => h x (List.mem_cons_of_mem _ hx) hne)]

/-- C3 witness: the spec's update-path scenario (record `r1` with content
203.0.113.5, TTL 300, proxied true; notification 203.0.113.9) issues exactly
one update for `r1` with the preserved TTL 300 and proxied true. -/
theorem c3_update_path_witness :
    runUpdateLoop envOneRecOk ("zone1") ("203.0.113.9") [recHome]
      = ([ProviderCall.updateRec ("zone1") ("r1") ("203.0.113.9") 300 (some true)],
         false) :=
  c3_update_path envOneRecOk ("zone1") ("203.0.113.9") [recHome] (fun _ _ _ => rfl)

/-! ## C4 — family routing -/

/-- C4: when every action in the list carries family 4 or 6 (as `init`
guarantees), the action loop behaves exactly as if run over only the actions
of the notification's family: an IPv4 notification reconciles only
`IpVersion = 4` actions and an IPv6 notification only `IpVersion = 6` ones, so
no action of the other family receives any provider call. -/
theorem c4_family_routing (env : ProviderEnv) (ip : GoIP) (ipS : String)
    (actions : List Action)
    (h : ∀ a ∈ actions, a.IpVersion = 4 ∨ a.IpVersion = 6) :
    runActions env ip ipS actions
      = runActions env ip ipS (actions.filter (fun a =>
          if (ipTo4 ip).isNone = true then a.IpVersion == 6 else a.IpVersion == 4)) := by
  induction actions with
  | nil => rfl
  | cons a rest ih =>
    have ha := h a (List.mem_cons_self a rest)
    have ih' := ih (fun x hx => h x (List.mem_cons_of_mem _ hx))
    by_cases hip : (ipTo4 ip).isNone = true
    · by_cases h6 : a.IpVersion = 6
      · rw [List.filter_cons_of_pos (by simp [hip, h6]), runActions_cons, runActions_cons,
          ih']
      · rw [List.filter_cons_of_neg (by simp [hip, h6]), runActions_cons,
          if_pos ⟨hip, h6⟩]
        exact ih'
    · have hip' : (ipTo4 ip).isNone = false := by
        cases hh : (ipTo4 ip).isNone
        · rfl
        · exact absurd hh hip
      by_cases h6 : a.IpVersion = 6
      · rw [List.filter_cons_of_neg (by simp [hip', h6]), runActions_cons,
          if_neg (by simp [hip']), if_pos ⟨hip', h6⟩]
        exact ih'
      · have h4 : a.IpVersion = 4 := by
          rcases ha with hv | hv
          · exact hv
          · exact absurd hv h6
        rw [List.filter_cons_of_pos (by simp [hip', h4]), runActions_cons, runActions_cons,
          ih']

/-- C4 witness: an IPv4 notification over one action per family routes to the
IPv4 action only. -/
theorem c4_family_routing_witness :
    runActions envEmptyOk ip4Home ("203.0.113.5") [actHome4, actHome6]
      = runActions envEmptyOk ip4Home ("203.0.113.5")
          ([actHome4, actHome6].filter (fun a =>
            if (ipTo4 ip4Home).isNone = true then a.IpVersion == 6
            else a.IpVersion == 4)) :=
  c4_family_routing envEmptyOk ip4Home ("203.0.113.5") [actHome4, actHome6] (by decide)

/-! ## C9 — fatal provider errors -/

/-- C9: a failed list call aborts the action after that single call; a failed
create call aborts after the list and create calls; a failed update call
aborts the record loop at that record; a fatal action stops the action loop
with no calls for the remaining actions; and a fatal action loop leaves the
worker state (in particular both `LastAddress` slots) unchanged, modelling
`os.Exit(1)`. -/
theorem c9_fatal_errors (env : ProviderEnv) (ipStr : GoIP → String) (ip : GoIP)
    (ipS : String) (a : Action) (s : WorkerState) :
    (∀ e, env.listResult a.CfZoneId (recordTypeFor ip) a.DnsRecord = Except.error e →
       runAction env ip ipS a
         = ([ProviderCall.listRec a.CfZoneId (recordTypeFor ip) a.DnsRecord], true)) ∧
    (∀ e, env.listResult a.CfZoneId (recordTypeFor ip) a.DnsRecord = Except.ok [] →
       env.createResult a.CfZoneId (recordTypeFor ip) a.DnsRecord ipS 120 false
         = Except.error e →
       runAction env ip ipS a
         = ([ProviderCall.listRec a.CfZoneId (recordTypeFor ip) a.DnsRecord,
             ProviderCall.createRec a.CfZoneId (recordTypeFor ip) a.DnsRecord ipS 120 false],
            true)) ∧
    (∀ zoneId r rs e, r.content ≠ ipS →
       env.updateResult zoneId r.id ipS r.ttl r.proxied = Except.error e →
       runUpdateLoop env zoneId ipS (r :: rs)
         = ([ProviderCall.updateRec zoneId r.id ipS r.ttl r.proxied], true)) ∧
    (∀ rest cs, ¬((ipTo4 ip).isNone = true ∧ a.IpVersion ≠ 6) →
       ¬((ipTo4 ip).isNone = false ∧ a.IpVersion = 6) →
       runAction env ip ipS a = (cs, true) →
       runActions env ip ipS (a :: rest) = (cs, true)) ∧
    (∀ cs, dedupHit s ip = false →
       runActions env ip (ipStr ip) s.actions = (cs, true) →
       processNotification env ipStr s ip = (s, cs, true)) := by
  refine ⟨?_, ?_, ?_, ?_, ?_⟩
  · intro e hlist
    simp only [runAction]
    rw [hlist]
  · intro e hlist hcreate
    simp only [runAction]
    rw [hlist]
    simp only [List.length_nil, if_pos rfl]
    rw [hcreate]
    rfl
  · intro zoneId r rs e hcontent hupd
    unfold runUpdateLoop
    rw [if_neg hcontent]
    simp only []
    rw [hupd]
  · intro rest cs h1 h2 hrun
    rw [runActions_cons, if_neg h1, if_neg h2]
    simp only [hrun]
    rfl
  · intro cs hdd hra
    unfold processNotification
    rw [hdd]
    simp only [Bool.false_eq_true, if_false, hra]
    rfl

/-- C9 witness: a failing list call and a failing update call each terminate
with exactly the calls made so far, and a fatal action loop leaves the
`LastAddress` slots unset. -/
theorem c9_fatal_errors_witness :
    runAction envListErr ip4Home ("203.0.113.9") actHome4
        = ([ProviderCall.listRec ("zone1") ("A") ("home.example.com")], true)
    ∧ runUpdateLoop envUpdateErr ("zone1") ("203.0.113.9") [recHome]
        = ([ProviderCall.updateRec ("zone1") ("r1") ("203.0.113.9") 300 (some true)],
           true)
    ∧ processNotification envListErr strFixed state0 ip4Home
        = (state0, [ProviderCall.listRec ("zone1") ("A") ("home.example.com")], true) := by
  refine ⟨?_, ?_, ?_⟩
  · exact (c9_fatal_errors envListErr strFixed ip4Home ("203.0.113.9") actHome4
      state0).1 ("timeout") rfl
  · exact (c9_fatal_errors envUpdateErr strFixed ip4Home ("203.0.113.9") actHome4
      state0).2.2.1 ("zone1") recHome [] ("boom") (by decide) rfl
  · exact (c9_fatal_errors envListErr strFixed ip4Home ("203.0.113.9") actHome4
      state0).2.2.2.2
      [ProviderCall.listRec ("zone1") ("A") ("home.example.com")] (by decide) (by decide)

/-! ## Helper lemmas: dedup -/

/-- Go `Equal` is reflexive. -/
theorem ipEqual_refl (ip : GoIP) : ipEqual ip ip = true := by
  unfold ipEqual
  rw [if_pos rfl]
  exact beq_self_eq_true ip

/-- A set and `Equal` family slot makes the dedup check fire. -/
theorem dedupHit_of_slot (s : WorkerState) (ip l : GoIP)
    (hslot : familySlot s ip = some l) (heq : ipEqual l ip = true) :
    dedupHit s ip = true := by
  unfold familySlot at hslot
  unfold dedupHit
  by_cases hip : (ipTo4 ip).isNone = true
  · rw [if_pos hip] at hslot
    rw [if_pos hip, hslot]
    exact heq
  · rw [if_neg hip] at hslot
    rw [if_neg hip, hslot]
    exact heq

/-- A discarded notification does nothing: no calls, unchanged state. -/
theorem processNotification_dedup (env : ProviderEnv) (ipStr : GoIP → String)
    (s : WorkerState) (ip : GoIP) (hd : dedupHit s ip = true) :
    processNotification env ipStr s ip = (s, [], false) := by
  unfold processNotification
  rw [hd]
  rfl

/-- After a non-discarded, non-fatal notification the family's `LastAddress`
slot holds the new address. -/
theorem processNotification_slot (env : ProviderEnv) (ipStr : GoIP → String)
    (s : WorkerState) (ip : GoIP) (s1 : WorkerState) (cs : List ProviderCall)
    (hd : dedupHit s ip = false)
    (hp : processNotification env ipStr s ip = (s1, cs, false)) :
    familySlot s1 ip = some ip := by
  unfold processNotification at hp
  rw [hd, if_neg (by simp)] at hp
  cases hres : (runActions env ip (ipStr ip) s.actions).2
  · rw [hres, if_neg (by simp)] at hp
    by_cases hip : (ipTo4 ip).isNone = true
    · rw [if_pos hip] at hp
      have h1 := congrArg Prod.fst hp
      simp only [] at h1
      rw [← h1]
      unfold familySlot
      rw [if_pos hip]
    · rw [if_neg hip] at hp
      have h1 := congrArg Prod.fst hp
      simp only [] at h1
      rw [← h1]
      unfold familySlot
      rw [if_neg hip]
  · rw [hres, if_pos rfl] at hp
    have h3 := congrArg (fun p => p.2.2) hp
    simp at h3

/-- Processing the same notification again right away does nothing. -/
theorem processNotification_self (env : ProviderEnv) (ipStr : GoIP → String)
    (s : WorkerState) (ip : GoIP) (s1 : WorkerState) (cs : List ProviderCall)
    (hp : processNotification env ipStr s ip = (s1, cs, false)) :
    processNotification env ipStr s1 ip = (s1, [], false) := by
  cases hd : dedupHit s ip
  · exact processNotification_dedup env ipStr s1 ip
      (dedupHit_of_slot s1 ip ip (processNotification_slot env ipStr s ip s1 cs hd hp)
        (ipEqual_refl ip))
  · have heq := processNotification_dedup env ipStr s ip hd
    rw [heq] at hp
    have h1 := congrArg Prod.fst hp
    simp only [] at h1
    rw [← h1]
    exact processNotification_dedup env ipStr s ip hd

/-- Replaying a self-discarding notification any number of times does
nothing. -/
theorem runWorker_self (env : ProviderEnv) (ipStr : GoIP → String)
    (s1 : WorkerState) (ip : GoIP)
    (h : processNotification env ipStr s1 ip = (s1, [], false)) :
    ∀ n, runWorker env ipStr s1 (List.replicate n ip) = (s1, [], false) := by
  intro n
  induction n with
  | zero => rfl
  | succ n ih =>
    rw [List.replicate_succ]
    unfold runWorker
    rw [h, ih]
    rfl

/-! ## C1 — dedup -/

/-- C1: a notification whose family slot is set and value-`Equal` to it is
discarded with zero provider calls and an unchanged state (in particular both
`LastAddress` slots are untouched); after a non-discarded notification whose
action loop completes without a fatal error, the slot of the notification's
family holds the new address; and a run of consecutive equal notifications
issues exactly the provider calls of its first element. -/
theorem c1_dedup (env : ProviderEnv) (ipStr : GoIP → String) (s : WorkerState)
    (ip : GoIP) :
    (∀ l, familySlot s ip = some l → ipEqual l ip = true →
       processNotification env ipStr s ip = (s, [], false)) ∧
    (∀ s1 cs, dedupHit s ip = false →
       processNotification env ipStr s ip = (s1, cs, false) →
       familySlot s1 ip = some ip) ∧
    (∀ n s1 cs, processNotification env ipStr s ip = (s1, cs, false) →
       runWorker env ipStr s (ip :: List.replicate n ip)
         = runWorker env ipStr s [ip]) := by
  refine ⟨?_, ?_, ?_⟩
  · intro l hslot heq
    exact processNotification_dedup env ipStr s ip (dedupHit_of_slot s ip l hslot heq)
  · intro s1 cs hd hp
    exact processNotification_slot env ipStr s ip s1 cs hd hp
  · intro n s1 cs hp
    have hself := processNotification_self env ipStr s ip s1 cs hp
    show runWorker env ipStr s (ip :: List.replicate n ip) = runWorker env ipStr s (ip :: [])
    unfold runWorker
    rw [hp, runWorker_self env ipStr s1 ip hself n]
    rfl

/-- C1 witness: a second delivery of the same IPv4 address is discarded with
no provider calls and no state change. -/
theorem c1_dedup_witness :
    processNotification envEmptyOk strFixed stateLast4 ip4Home
      = (stateLast4, [], false) :=
  (c1_dedup envEmptyOk strFixed stateLast4 ip4Home).1 ip4Home rfl (by decide)

/-! ## Helper lemmas: startup action list -/

/-- The key-collection fold keeps the accumulated list duplicate free. -/
theorem dedupKeys_aux_nodup (l : List String) :
    ∀ acc : List String, acc.Nodup →
      (l.foldl (fun acc v => if v ∈ acc then acc else acc ++ [v]) acc).Nodup := by
  induction l with
  | nil => intro acc h; exact h
  | cons x xs ih =>
    intro acc h
    rw [List.foldl_cons]
    by_cases hx : x ∈ acc
    · rw [if_pos hx]
      exact ih acc h
    · rw [if_neg hx]
      apply ih
      rw [List.nodup_append]
      exact ⟨h, List.nodup_singleton x,
        fun a ha hb => by
          rw [List.mem_singleton] at hb
          subst hb
          exact hx ha⟩

/-- The Go map key set contains each configured name once. -/
theorem dedupKeys_nodup (l : List String) : (dedupKeys l).Nodup :=
  dedupKeys_aux_nodup l [] List.nodup_nil

/-- The worker never modifies the action list. -/
theorem processNotification_actions (env : ProviderEnv) (ipStr : GoIP → String)
    (s : WorkerState) (ip : GoIP) :
    ((processNotification env ipStr s ip).1).actions = s.actions := by
  unfold processNotification
  split
  · rfl
  · split
    · rfl
    · split
      · rfl
      · rfl

/-- In a duplicate-free name list, filtering on one contained name keeps
exactly one entry. -/
theorem filter_beq_length_eq_one (l : List String) (r : String) (hn : l.Nodup)
    (hr : r ∈ l) : (l.filter (fun v => v == r)).length = 1 := by
  rw [← List.countP_eq_length_filter, ← List.count_eq_countP r l]
  exact List.count_eq_one_of_mem hn hr

/-- Filtering the actions built for one family on a (name, family) pair keeps
the actions of that name when the family matches and nothing otherwise. -/
theorem filter_map_action_length (l : List String) (m : List (String × String))
    (ver pver : Int) (r : String) :
    ((l.map (fun v => Action.mk v (lookupZone m v) ver)).filter
        (fun a => a.DnsRecord == r && a.IpVersion == pver)).length
      = if ver = pver then (l.filter (fun v => v == r)).length else 0 := by
  induction l with
  | nil => by_cases h : ver = pver <;> simp [h]
  | cons x xs ih =>
    rw [List.map_cons, List.filter_cons]
    by_cases h : ver = pver
    · subst h
      rw [if_pos rfl] at ih
      rw [if_pos rfl, List.filter_cons]
      cases hx : x == r
      · simp only [hx, Bool.and_false, Bool.and_true, beq_self_eq_true]
        simp [ih]
      · simp only [hx, Bool.and_true, beq_self_eq_true]
        simp [ih]
    · rw [if_neg h] at ih
      rw [if_neg h]
      have hvp : ((ver : Int) == pver) = false := beq_eq_false_iff_ne.mpr h
      simp only [hvp, Bool.and_false]
      simp [ih]

/-! ## C8 — action-list invariant -/

/-- C8 (amended): when each family's configured list is duplicate free, a
successful `init` produces exactly one action per configured (record, family)
pair — also when the same name appears in both family lists; every name is
resolved at most once (the returned `keys` are the resolution calls, one per
distinct configured name); and the worker never modifies the action list
afterwards. -/
theorem c8_action_list (resolveZone : String → Except String String)
    (opts : UpdaterOptions) (acts : List Action) (keys : List String)
    (h4 : opts.ipv4Zones.Nodup) (h6 : opts.ipv6Zones.Nodup)
    (hok : initActions resolveZone opts = Except.ok (acts, keys)) :
    (∀ r ∈ opts.ipv4Zones,
       (acts.filter (fun a => a.DnsRecord == r && a.IpVersion == 4)).length = 1) ∧
    (∀ r ∈ opts.ipv6Zones,
       (acts.filter (fun a => a.DnsRecord == r && a.IpVersion == 6)).length = 1) ∧
    (∀ nm, keys.count nm ≤ 1) ∧
    (∀ env ipStr s ip, ((processNotification env ipStr s ip).1).actions = s.actions) := by
  simp only [initActions] at hok
  cases hres : resolveAll resolveZone (dedupKeys (opts.ipv4Zones ++ opts.ipv6Zones)) with
  | error e =>
    rw [hres] at hok
    simp at hok
  | ok m =>
    rw [hres] at hok
    simp only [Except.ok.injEq, Prod.mk.injEq] at hok
    obtain ⟨hacts, hkeys⟩ := hok
    refine ⟨?_, ?_, ?_, ?_⟩
    · intro r hr
      rw [← hacts, List.filter_append, List.length_append,
        filter_map_action_length opts.ipv4Zones m 4 4 r,
        filter_map_action_length opts.ipv6Zones m 6 4 r,
        if_pos rfl, if_neg (by omega), Nat.add_zero]
      exact filter_beq_length_eq_one opts.ipv4Zones r h4 hr
    · intro r hr
      rw [← hacts, List.filter_append, List.length_append,
        filter_map_action_length opts.ipv4Zones m 4 6 r,
        filter_map_action_length opts.ipv6Zones m 6 6 r,
        if_neg (by omega), if_pos rfl, Nat.zero_add]
      exact filter_beq_length_eq_one opts.ipv6Zones r h6 hr
    · intro nm
      rw [← hkeys]
      exact List.nodup_iff_count_le_one.mp
        (dedupKeys_nodup (opts.ipv4Zones ++ opts.ipv6Zones)) nm
    · intro env ipStr s ip
      exact processNotification_actions env ipStr s ip

/-- C8 witness: a name configured for both families yields one action per
family. -/
theorem c8_action_list_witness :
    (([Action.mk ("a") ("zone1") 4, Action.mk ("a") ("zone1") 6]).filter
      (fun a => a.DnsRecord == ("a") && a.IpVersion == 4)).length = 1 :=
  (c8_action_list resolverOk (UpdaterOptions.mk [("a")] [("a")])
    [Action.mk ("a") ("zone1") 4, Action.mk ("a") ("zone1") 6] [("a")]
    (by decide) (by decide) rfl).1 ("a") (by decide)

/-- C8 counterexample: a record name configured twice in the IPv4 list yields
two actions for the same (record, family) pair, so the claimed "exactly one
Action per configured pair" fails without a duplicate-freeness hypothesis. -/
theorem c8_action_list_cex :
    (initActions (fun _ => Except.ok ("z")) (UpdaterOptions.mk [("a"), ("a")] [])).map
        (fun p => (p.1.filter (fun a => a.DnsRecord == ("a") && a.IpVersion == 4)).length)
      = Except.ok 2 := by
  rfl

/-! ## C10 — retry-policy parsing -/

/-- C10: the claim is right and the code is wrong.  A non-empty retry policy
with fewer than three space-separated fields makes `InitApi` read
`retryPolicySplit[1]` (or `[2]`) out of bounds — a runtime panic rather than
the reported configuration error the spec requires; with three integer fields
the policy is configured. -/
theorem c10_retry_bug :
    parseRetryPolicy ("5") = RetryParse.indexOutOfRange
    ∧ parseRetryPolicy ("5 3") = RetryParse.indexOutOfRange
    ∧ parseRetryPolicy ("5 3 10") = RetryParse.configured 5 3 10 := by
  refine ⟨rfl, rfl, rfl⟩

end Dyndns
